import Mathlib

/-!
Verification development for the `mactime` bodyfile-to-timeline converter
(`src/bodyfile.rs`, `src/main.rs`).

The Rust source is shallowly embedded: machine integers become `Nat`/`Int`
(with explicit range checks where the source checks or overflows matter),
`DateTime<Utc>` becomes the signed Unix epoch second (`Int`), `NaiveDate`
becomes an explicit year/month/day structure, and fallible operations return
`Option` or small result inductives.  Per-entry grouping uses an association
list preserving first-insertion order; the Rust code iterates a `HashMap`
whose order is unspecified, so only order-independent facts about a single
entry's events rely on it, and cross-entry order (which the Rust `Vec` does
fix) is preserved exactly.
-/

namespace Mactime

/-! ### String and number parsing primitives

Models of `str::split` on `'|'` (as performed by the csv reader with
delimiter `b'|'` and no quoting involved for the inputs considered),
`u64::from_str` and `i64::from_str`. -/

/-- Split a character list on a delimiter; `n` delimiters yield `n+1` fields. -/
def splitFields (delim : Char) : List Char → List (List Char)
  | [] => [[]]
  | c :: rest =>
    let r := splitFields delim rest
    if c = delim then [] :: r
    else
      match r with
      | [] => [[c]]
      | f :: fs => (c :: f) :: fs

/-- Value of a decimal digit character, `none` for non-digits. -/
def digitVal (c : Char) : Option Nat :=
  if '0' ≤ c ∧ c ≤ '9' then some (c.toNat - 48) else none

/-- Accumulate decimal digits left to right; fails on any non-digit. -/
def digitsAcc (acc : Nat) : List Char → Option Nat
  | [] => some acc
  | c :: cs =>
    match digitVal c with
    | none => none
    | some d => digitsAcc (acc * 10 + d) cs

/-- Parse a non-empty all-digit string to a `Nat`. -/
def parseDigits (cs : List Char) : Option Nat :=
  if cs.isEmpty then none else digitsAcc 0 cs

/-- Models Rust `u64::from_str`: optional `+` sign, decimal digits, range check. -/
def parseU64 (cs : List Char) : Option Nat :=
  let body :=
    match cs with
    | '+' :: rest => rest
    | _ => cs
  match parseDigits body with
  | none => none
  | some n => if n < 2 ^ 64 then some n else none

/-- Models Rust `i64::from_str`: optional `+`/`-` sign, decimal digits, range check. -/
def parseI64 (cs : List Char) : Option Int :=
  match cs with
  | '-' :: rest =>
    match parseDigits rest with
    | none => none
    | some n => if n ≤ 2 ^ 63 then some (-(n : Int)) else none
  | '+' :: rest =>
    match parseDigits rest with
    | none => none
    | some n => if n < 2 ^ 63 then some (n : Int) else none
  | _ =>
    match parseDigits cs with
    | none => none
    | some n => if n < 2 ^ 63 then some (n : Int) else none

/-! ### Calendar dates

Models of chrono's `NaiveDate` (external library used by the source).
`civilFromDays`/`daysFromCivil` are the standard proleptic-Gregorian
conversions between a day count relative to 1970-01-01 and a civil
year/month/day; chrono's comparisons on `NaiveDate` are chronological,
modelled by lexicographic year/month/day comparison.  All divisions below
have positive divisors, for which Lean's `Int` division `/` (`Int.ediv`)
is floor division, as required by the algorithm. -/

structure Date where
  year : Int
  month : Int
  day : Int
deriving DecidableEq

/-- Chronological comparison of civil dates (models `NaiveDate` `<=`). -/
def Date.leb (a b : Date) : Bool :=
  if a.year < b.year then true
  else if b.year < a.year then false
  else if a.month < b.month then true
  else if b.month < a.month then false
  else decide (a.day ≤ b.day)

/-- Civil date of day `z`, counted from 1970-01-01 (proleptic Gregorian). -/
def civilFromDays (z0 : Int) : Date :=
  let z := z0 + 719468
  let era := z / 146097
  let doe := z - era * 146097
  let yoe := (doe - doe / 1460 + doe / 36524 - doe / 146096) / 365
  let y := yoe + era * 400
  let doy := doe - (365 * yoe + yoe / 4 - yoe / 100)
  let mp := (5 * doy + 2) / 153
  let d := doy - (153 * mp + 2) / 5 + 1
  let m := if mp < 10 then mp + 3 else mp - 9
  ⟨if m ≤ 2 then y + 1 else y, m, d⟩

/-- Day count (relative to 1970-01-01) of a civil date (proleptic Gregorian). -/
def daysFromCivil (y0 m d : Int) : Int :=
  let y := if m ≤ 2 then y0 - 1 else y0
  let era := y / 400
  let yoe := y - era * 400
  let doy := (153 * (if 2 < m then m - 3 else m + 9) + 2) / 5 + d - 1
  let doe := yoe * 365 + yoe / 4 - yoe / 100 + doy
  era * 146097 + doe - 719468

/-- Smallest epoch-day representable by chrono's `NaiveDate` (year -262144). -/
def minEpochDay : Int := daysFromCivil (-262144) 1 1

/-- Largest epoch-day representable by chrono's `NaiveDate` (year 262143). -/
def maxEpochDay : Int := daysFromCivil 262143 12 31

/-- Models chrono's `NaiveDateTime::from_timestamp(secs, 0)` as used at
`bodyfile.rs:289`: the instant is the epoch second itself, but the call
panics (modelled as `none`) when the day count falls outside the range
representable by `NaiveDate`. -/
def fromTimestamp (ts : Int) : Option Int :=
  if minEpochDay ≤ ts / 86400 ∧ ts / 86400 ≤ maxEpochDay then some ts else none

/-- UTC calendar date of an instant: models
`date.date().naive_utc()` at `bodyfile.rs:186`. -/
def dateOfInstant (ts : Int) : Date :=
  civilFromDays (ts / 86400)

/-- Zero-pad a number to two digits (chrono `%m`/`%d`/`%H`/`%M`/`%S`). -/
def pad2 (n : Nat) : String :=
  if n < 10 then "0" ++ toString n else toString n

/-- Zero-pad a number to four digits (chrono `%Y` for non-negative years). -/
def pad4 (n : Nat) : String :=
  if n < 10 then "000" ++ toString n
  else if n < 100 then "00" ++ toString n
  else if n < 1000 then "0" ++ toString n
  else toString n

/-- Year field of chrono's `%Y`: zero-padded to four digits, with an
explicit sign for negative years and for years of five or more digits. -/
def formatYear (y : Int) : String :=
  if y < 0 then "-" ++ pad4 (-y).toNat
  else if 10000 ≤ y then "+" ++ pad4 y.toNat
  else pad4 y.toNat

/-- Models `entry.datetime.format("%Y-%m-%d %H:%M:%S")` at `bodyfile.rs:232`
for a UTC instant given as an epoch second. -/
def formatDatetime (ts : Int) : String :=
  let date := civilFromDays (ts / 86400)
  let secs := (ts % 86400).toNat
  formatYear date.year ++ "-" ++ pad2 date.month.toNat ++ "-" ++ pad2 date.day.toNat
    ++ " " ++ pad2 (secs / 3600) ++ ":" ++ pad2 (secs % 3600 / 60) ++ ":" ++ pad2 (secs % 60)

/-! ### Record parsing (`BodyFileParser::build`, `BodyFileEntry`,
`unix_date_format::deserialize`) -/

/-- One parsed bodyfile record (`BodyFileEntry` at `bodyfile.rs:259-273`);
the `md5`, `mode_as_string`, `uid`, `gid` fields are ignored by the struct. -/
structure BodyFileEntry where
  name : String
  meta : String
  size : Nat
  atime : Int
  mtime : Int
  ctime : Int
  crtime : Int
deriving DecidableEq

/-- Result of deserializing one time field (`unix_date_format::deserialize`,
`bodyfile.rs:282-300`): `bad` is a recoverable serde error (non-integer
text), `outOfRange` models the `from_timestamp` panic that aborts the whole
process. -/
inductive TimeResult where
  | ok (ts : Int)
  | bad
  | outOfRange
deriving DecidableEq

/-- Models `unix_date_format::deserialize`: parse the text as `i64`
(failure is a per-record serde error), then convert with
`NaiveDateTime::from_timestamp` (out-of-range values panic). -/
def deserializeTime (s : String) : TimeResult :=
  match parseI64 s.toList with
  | none => .bad
  | some ts =>
    match fromTimestamp ts with
    | none => .outOfRange
    | some t => .ok t

/-- Result of deserializing one record: `skip` is a recoverable failure
(the loop at `bodyfile.rs:24-29` prints it and continues), `fatal` models a
panic that unwinds out of the whole run. -/
inductive RecResult where
  | ok (e : BodyFileEntry)
  | skip
  | fatal
deriving DecidableEq

/-- Deserialize one line into a `BodyFileEntry`: split on `|`, require the
11 fields named by the virtual header, take `name`/`inode`/`size` and the
four time fields; any field-count or numeric failure is a recoverable
per-record error. -/
def parseRecord (line : String) : RecResult :=
  let fields := splitFields '|' line.toList
  if fields.length = 11 then
    let name := String.mk (fields.getD 1 [])
    let meta := String.mk (fields.getD 2 [])
    match parseU64 (fields.getD 6 []) with
    | none => .skip
    | some size =>
      match deserializeTime (String.mk (fields.getD 7 [])) with
      | .bad => .skip
      | .outOfRange => .fatal
      | .ok atime =>
        match deserializeTime (String.mk (fields.getD 8 [])) with
        | .bad => .skip
        | .outOfRange => .fatal
        | .ok mtime =>
          match deserializeTime (String.mk (fields.getD 9 [])) with
          | .bad => .skip
          | .outOfRange => .fatal
          | .ok ctime =>
            match deserializeTime (String.mk (fields.getD 10 [])) with
            | .bad => .skip
            | .outOfRange => .fatal
            | .ok crtime => .ok ⟨name, meta, size, atime, mtime, ctime, crtime⟩
  else .skip

/-- The record loop of `BodyFileParser::build` (`bodyfile.rs:24-33`):
recoverable failures are skipped and the loop continues; a panic (`fatal`)
aborts the whole run (`none`). -/
def parseStage : List String → Option (List BodyFileEntry)
  | [] => some []
  | line :: rest =>
    match parseRecord line with
    | .fatal => none
    | .skip => parseStage rest
    | .ok e => (parseStage rest).map (fun es => e :: es)

/-- Header-handling configuration of a `csv::Reader`. -/
structure ReaderConfig where
  hasHeaders : Bool
  presetHeaders : Option (List String)

/-- Models the csv crate's header handling in `Reader::read_byte_record`
(external library): the first line of the file is consumed as a header —
and withheld from the data records — only when `has_headers` is set AND no
headers were supplied via `set_headers`; when headers are preset, every
line, the first included, is yielded as a data record. -/
def recordsOf (cfg : ReaderConfig) (lines : List String) : List String :=
  match cfg.presetHeaders with
  | some _ => lines
  | none => if cfg.hasHeaders then lines.drop 1 else lines

/-- The eleven virtual header fields set at `bodyfile.rs:21`. -/
def bodyFileHeaders : List String :=
  ["md5", "name", "inode", "mode_as_string", "uid", "gid", "size",
   "atime", "mtime", "ctime", "crtime"]

/-- The reader configuration of `BodyFileParser::build`
(`bodyfile.rs:14-22`): `has_headers(true)` followed by `set_headers`. -/
def bodyFileReaderConfig : ReaderConfig :=
  { hasHeaders := true, presetHeaders := some bodyFileHeaders }

/-! ### MACB category sets and the timeline builder -/

/-- Bit values of the `MACB` bitflags (`bodyfile.rs:45-52`). -/
def MODIFIED : Nat := 1
def ACCESSED : Nat := 2
def CHANGED : Nat := 4
def BIRTH : Nat := 8

/-- Display form of a MACB set (`impl fmt::Display for MACB`,
`bodyfile.rs:54-63`): one character per category in the fixed order
m-a-c-b, `.` when absent; `contains` on a single-bit flag is
`bits &&& flag = flag`. -/
def macbDisplay (m : Nat) : String :=
  (if m &&& MODIFIED = MODIFIED then "m" else ".")
    ++ (if m &&& ACCESSED = ACCESSED then "a" else ".")
    ++ (if m &&& CHANGED = CHANGED then "c" else ".")
    ++ (if m &&& BIRTH = BIRTH then "b" else ".")

/-- One timeline row (`TimestampEntry`, `bodyfile.rs:65-72`). -/
structure TimestampEntry where
  datetime : Int
  macb : Nat
  meta : String
  size : Nat
  filename : String
deriving DecidableEq

/-- `macb.entry(k).or_insert(f); *current |= f` on the per-entry map
(`bodyfile.rs:169-179`): union `f` into the value at key `k`, appending a
fresh binding when the key is absent.  The Rust map is a `HashMap`; this
association list fixes first-insertion order as the iteration order. -/
def insertFlag : List (Int × Nat) → Int → Nat → List (Int × Nat)
  | [], k, f => [(k, f)]
  | (k', f') :: rest, k, f =>
    if k' = k then (k', f' ||| f) :: rest
    else (k', f') :: insertFlag rest k f

/-- The per-entry timestamp → MACB map of `build_timeline`
(`bodyfile.rs:167-179`), visiting mtime, atime, ctime, crtime in program
order. -/
def macbMap (e : BodyFileEntry) : List (Int × Nat) :=
  insertFlag (insertFlag (insertFlag (insertFlag [] e.mtime MODIFIED)
    e.atime ACCESSED) e.ctime CHANGED) e.crtime BIRTH

/-- The date filter of `main.rs` / `bodyfile.rs:117-129`. -/
structure DateFilter where
  start : Date
  endDate : Date

/-- The in-range test of `build_timeline` (`bodyfile.rs:184-190`):
`date_filter.start <= naive && naive <= date_filter.end`. -/
def inRangeB (f : DateFilter) (d : Date) : Bool :=
  Date.leb f.start d && Date.leb d f.endDate

/-- The record constructed and pushed at `bodyfile.rs:196-204`. -/
def toEvent (e : BodyFileEntry) (p : Int × Nat) : TimestampEntry :=
  ⟨p.1, p.2, e.meta, e.size, e.name⟩

/-- The per-entry loop body of `build_timeline` (`bodyfile.rs:182-205`):
for each (instant, macb) pair, skip it when a filter is present and the
instant's UTC calendar date is out of range, else emit the event. -/
def entryEvents (e : BodyFileEntry) (filter : Option DateFilter) : List TimestampEntry :=
  (macbMap e).filterMap (fun p =>
    let outOfRange :=
      match filter with
      | some f => !(inRangeB f (dateOfInstant p.1))
      | none => false
    if outOfRange then none else some (toEvent e p))

/-- `BodyFile::build_timeline` (`bodyfile.rs:162-207`): entries processed
in order, each contributing its surviving events. -/
def buildTimeline (entries : List BodyFileEntry) (filter : Option DateFilter) :
    List TimestampEntry :=
  entries.flatMap (fun e => entryEvents e filter)

/-! ### Sorting (`BodyFile::sort_timeline`)

`sort_timeline` calls `Vec::sort` (`bodyfile.rs:158-160`), implemented in
the standard library as `stable_sort(self, T::lt)`.  `TimestampEntry` does
not override `lt`, so its default body dispatches to the handwritten
`PartialOrd::partial_cmp` (`bodyfile.rs:88-115`), which compares `datetime`
first and, on equal instants, tie-breaks by `filename`; the `Ord::cmp`
instance (`bodyfile.rs:74-78`, datetime only) is never consulted by
`sort`.  A stable sort by a strict weak order is extensionally unique, so
the structurally recursive insertion sort below is a faithful model. -/

/-- Strict lexicographic order on character lists by codepoint; on UTF-8
data this coincides with Rust's byte-lexicographic `str` comparison
yielding `Ordering::Less`. -/
def charListLt : List Char → List Char → Bool
  | [], [] => false
  | [], _ :: _ => true
  | _ :: _, [] => false
  | x :: xs, y :: ys =>
    if x.toNat < y.toNat then true
    else if y.toNat < x.toNat then false
    else charListLt xs ys

/-- The comparison `Vec::sort` actually uses: `PartialOrd::lt`, whose
default implementation asks the overridden `partial_cmp`
(`bodyfile.rs:88-115`) for `Ordering::Less` — `datetime` first, then
`filename` on equal instants. -/
def eventLt (a b : TimestampEntry) : Bool :=
  decide (a.datetime < b.datetime) ||
    (decide (a.datetime = b.datetime) && charListLt a.filename.data b.filename.data)

/-- Insert an event before the first element it is not strictly above
(stable). -/
def insertEvent (e : TimestampEntry) : List TimestampEntry → List TimestampEntry
  | [] => [e]
  | x :: xs => if eventLt x e then x :: insertEvent e xs else e :: x :: xs

/-- Models `BodyFile::sort_timeline` (`bodyfile.rs:158-160`): stable sort
by `eventLt`. -/
def sortTimeline : List TimestampEntry → List TimestampEntry
  | [] => []
  | e :: rest => insertEvent e (sortTimeline rest)

/-! ### CSV emission (`BodyFile::generate_csv`) -/

/-- Whether the csv crate's default quoting (`QuoteStyle::Necessary`)
quotes a field: it contains the delimiter, a quote, or a line terminator. -/
def needsQuoting (cs : List Char) : Bool :=
  cs.any (fun c => c = ',' || c = '"' || c = '\n' || c = '\r')

/-- Double every quote character (csv crate's default escaping). -/
def doubleQuotes : List Char → List Char
  | [] => []
  | c :: cs => if c = '"' then c :: c :: doubleQuotes cs else c :: doubleQuotes cs

/-- One CSV field under the csv crate's default quoting rules. -/
def csvField (s : String) : String :=
  if needsQuoting s.toList then "\"" ++ String.mk (doubleQuotes s.toList) ++ "\"" else s

/-- One CSV record: fields joined by commas (`write_record`). -/
def csvRow (fields : List String) : String :=
  String.intercalate "," (fields.map csvField)

/-- The rows written by `BodyFile::generate_csv` (`bodyfile.rs:214-255`):
the header row then, per timeline event, datetime / MACB string / meta /
size / filename. -/
def generateCsvRows (timeline : List TimestampEntry) : List String :=
  csvRow ["Datetime", "MACB", "Meta", "Size", "FileName"]
    :: timeline.map (fun e =>
        csvRow [formatDatetime e.datetime, macbDisplay e.macb, e.meta,
                toString e.size, e.filename])

/-! ### Output channels

`BodyFileParser::build` reports record failures with `println!`
(`bodyfile.rs:26`), i.e. to standard output; `generate_csv` reports row
failures with `eprintln!` (`bodyfile.rs:244`), i.e. to standard error; the
CSV rows themselves go to the file named by `-o`, or to standard output
when absent (`bodyfile.rs:218-224`). -/

inductive Channel where
  | stdOut
  | stdErr
  | outFile
deriving DecidableEq

/-- Channel carrying the CSV rows, by destination (`bodyfile.rs:218-224`). -/
def primaryChannel (output : Option String) : Channel :=
  match output with
  | some _ => .outFile
  | none => .stdOut

/-- Channel of the per-record parse-failure messages (`println!` at
`bodyfile.rs:26`). -/
def parseFailureChannel : Channel := .stdOut

/-- Channel of the per-row CSV-failure messages (`eprintln!` at
`bodyfile.rs:244`). -/
def csvFailureChannel : Channel := .stdErr

/-- Diagnostic messages produced by the record loop of
`BodyFileParser::build`: one per failed line, on the channel of
`println!`. -/
def buildTrace (lines : List String) : List (Channel × String) :=
  lines.filterMap (fun l =>
    match parseRecord l with
    | .skip => some (parseFailureChannel, "Error deserializing record")
    | _ => none)

/-! ### Derived notions used by the claims -/

/-- All six pairwise disequalities between the four timestamps. -/
def pairwiseDistinctTimes (e : BodyFileEntry) : Prop :=
  e.atime ≠ e.mtime ∧ e.ctime ≠ e.mtime ∧ e.ctime ≠ e.atime ∧
    e.crtime ≠ e.mtime ∧ e.crtime ≠ e.atime ∧ e.crtime ≠ e.ctime

/-- The four timestamps are all identical. -/
def allTimesEqual (e : BodyFileEntry) : Prop :=
  e.atime = e.mtime ∧ e.ctime = e.mtime ∧ e.crtime = e.mtime

/-- Union of the MACB flags over a timestamp → flags map. -/
def flagUnion (l : List (Int × Nat)) : Nat :=
  (l.map Prod.snd).foldr (fun a b => a ||| b) 0

/-- Lexicographic order on character lists by codepoint; on UTF-8 data this
coincides with Rust's byte-lexicographic `str` ordering. -/
def charListLe : List Char → List Char → Bool
  | [], _ => true
  | _ :: _, [] => false
  | x :: xs, y :: ys =>
    if x.toNat < y.toNat then true
    else if y.toNat < x.toNat then false
    else charListLe xs ys

/-- The per-pair property asserted by the specification for sorted output:
strictly increasing in instant, or equal in instant with names in
ascending lexicographic order. -/
def specPair (a b : TimestampEntry) : Bool :=
  decide (a.datetime < b.datetime) ||
    (decide (a.datetime = b.datetime) && charListLe a.filename.data b.filename.data)

/-- The ordering property asserted by the specification for sorted output:
every adjacent pair satisfies `specPair`. -/
def specSortOrdered : List TimestampEntry → Bool
  | [] => true
  | [_] => true
  | a :: b :: rest => specPair a b && specSortOrdered (b :: rest)

/-- The example filter `DateFilter{2020-01-01, 2020-01-31}`. -/
def janFilter : DateFilter := ⟨⟨2020, 1, 1⟩, ⟨2020, 1, 31⟩⟩

/-- A well-formed bodyfile line (all timestamps on 1970-01-01). -/
def lineA : String := "0|file1|1-1-1|r|0|0|100|10|20|30|40"

/-- A bodyfile line whose `atime` field is not numeric. -/
def lineBadAtime : String := "0|file2|2-2-2|r|0|0|100|oops|20|30|40"

/-- Another well-formed bodyfile line. -/
def lineC : String := "0|file3|3-3-3|r|0|0|100|50|60|70|80"

/-- The round-trip example line from the source (`bodyfile.rs:20`). -/
def mftLine : String :=
  "0|c:/$MFT|0-128-6|r/rrwxrwxrwx|0|0|1835008|1595291898|1595291898|1595291898|1595291898"

/-- The record parsed from `mftLine`. -/
def mftEntry : BodyFileEntry :=
  ⟨"c:/$MFT", "0-128-6", 1835008, 1595291898, 1595291898, 1595291898, 1595291898⟩

/-- The decimal text of the largest signed 64-bit integer. -/
def i64MaxStr : String := "9223372036854775807"

/-- Entry named `zzz` with all four timestamps at epoch second 100. -/
def entryZ : BodyFileEntry := ⟨"zzz", "m1", 1, 100, 100, 100, 100⟩

/-- Entry named `aaa` with all four timestamps at epoch second 100. -/
def entryA : BodyFileEntry := ⟨"aaa", "m2", 2, 100, 100, 100, 100⟩

/-- Entry with all four timestamps at epoch 0, outside `janFilter`. -/
def entryEpoch : BodyFileEntry := ⟨"f", "m", 0, 0, 0, 0, 0⟩

/-! ### Helper lemmas about the per-entry grouping map -/

@[simp] theorem insertFlag_nil (k : Int) (f : Nat) : insertFlag [] k f = [(k, f)] := rfl

theorem map_fst_insertFlag (l : List (Int × Nat)) (k : Int) (f : Nat) :
    (insertFlag l k f).map Prod.fst =
      if k ∈ l.map Prod.fst then l.map Prod.fst else l.map Prod.fst ++ [k] := by
  induction l with
  | nil => simp
  | cons p rest ih =>
    obtain ⟨k', f'⟩ := p
    by_cases h : k' = k
    · subst h
      simp [insertFlag]
    · by_cases hm : k ∈ rest.map Prod.fst <;>
        simp [insertFlag, h, ih, hm, Ne.symm h]

theorem mem_map_fst_insertFlag (l : List (Int × Nat)) (k k' : Int) (f : Nat) :
    k' ∈ (insertFlag l k f).map Prod.fst ↔ k' ∈ l.map Prod.fst ∨ k' = k := by
  by_cases h : k ∈ l.map Prod.fst
  · rw [map_fst_insertFlag, if_pos h]
    constructor
    · exact Or.inl
    · rintro (h' | rfl)
      · exact h'
      · exact h
  · rw [map_fst_insertFlag, if_neg h]
    simp

theorem length_insertFlag (l : List (Int × Nat)) (k : Int) (f : Nat) :
    (insertFlag l k f).length =
      if k ∈ l.map Prod.fst then l.length else l.length + 1 := by
  have h := congrArg List.length (map_fst_insertFlag l k f)
  rw [List.length_map] at h
  rw [h]
  by_cases hm : k ∈ l.map Prod.fst <;> simp [hm]

theorem nodup_map_fst_insertFlag (l : List (Int × Nat)) (k : Int) (f : Nat)
    (h : (l.map Prod.fst).Nodup) : ((insertFlag l k f).map Prod.fst).Nodup := by
  rw [map_fst_insertFlag]
  by_cases hm : k ∈ l.map Prod.fst
  · rwa [if_pos hm]
  · rw [if_neg hm]
    simp [List.nodup_append, h, hm]

theorem flagUnion_insertFlag (l : List (Int × Nat)) (k : Int) (f : Nat) :
    flagUnion (insertFlag l k f) = flagUnion l ||| f := by
  induction l with
  | nil => simp [flagUnion, Nat.lor_comm]
  | cons p rest ih =>
    obtain ⟨k', f'⟩ := p
    by_cases h : k' = k
    · simp only [insertFlag, if_pos h, flagUnion, List.map_cons, List.foldr_cons]
      rw [Nat.lor_assoc, Nat.lor_assoc, Nat.lor_comm f]
    · simp only [insertFlag, if_neg h, flagUnion, List.map_cons, List.foldr_cons] at *
      rw [ih, Nat.lor_assoc]

theorem mem_keys_macbMap (e : BodyFileEntry) (k : Int) :
    k ∈ (macbMap e).map Prod.fst ↔
      k = e.mtime ∨ k = e.atime ∨ k = e.ctime ∨ k = e.crtime := by
  simp only [macbMap, mem_map_fst_insertFlag, List.map_nil, List.not_mem_nil,
    false_or, or_assoc]

theorem nodup_keys_macbMap (e : BodyFileEntry) : ((macbMap e).map Prod.fst).Nodup := by
  unfold macbMap
  apply nodup_map_fst_insertFlag
  apply nodup_map_fst_insertFlag
  apply nodup_map_fst_insertFlag
  apply nodup_map_fst_insertFlag
  simp

theorem flagUnion_macbMap (e : BodyFileEntry) : flagUnion (macbMap e) = 15 := by
  unfold macbMap
  rw [flagUnion_insertFlag, flagUnion_insertFlag, flagUnion_insertFlag,
    flagUnion_insertFlag]
  decide

theorem length_macbMap (e : BodyFileEntry) :
    (macbMap e).length =
      1 + (if e.atime = e.mtime then 0 else 1)
        + (if e.ctime = e.mtime ∨ e.ctime = e.atime then 0 else 1)
        + (if e.crtime = e.mtime ∨ e.crtime = e.atime ∨ e.crtime = e.ctime
            then 0 else 1) := by
  simp only [macbMap, length_insertFlag, mem_map_fst_insertFlag, List.map_nil,
    List.not_mem_nil, List.length_nil, false_or, or_assoc, if_false]
  split_ifs <;> omega

theorem macbMap_length_eq_card (e : BodyFileEntry) :
    (macbMap e).length = ({e.mtime, e.atime, e.ctime, e.crtime} : Finset Int).card := by
  have hset : ((macbMap e).map Prod.fst).toFinset
      = ({e.mtime, e.atime, e.ctime, e.crtime} : Finset Int) := by
    ext k
    rw [List.mem_toFinset, mem_keys_macbMap]
    simp
  rw [← hset, List.toFinset_card_of_nodup (nodup_keys_macbMap e), List.length_map]

/-! ### Helper lemmas about the timeline builder -/

theorem entryEvents_none (e : BodyFileEntry) :
    entryEvents e none = (macbMap e).map (toEvent e) := by
  unfold entryEvents
  induction macbMap e with
  | nil => rfl
  | cons p rest ih => simp_all

theorem buildTimeline_singleton (e : BodyFileEntry) (filter : Option DateFilter) :
    buildTimeline [e] filter = entryEvents e filter := by
  simp [buildTimeline]

theorem entryEvents_some (e : BodyFileEntry) (f : DateFilter) :
    entryEvents e (some f) =
      ((macbMap e).map (toEvent e)).filter
        (fun ev => inRangeB f (dateOfInstant ev.datetime)) := by
  unfold entryEvents
  induction macbMap e with
  | nil => rfl
  | cons p rest ih =>
    cases hb : inRangeB f (dateOfInstant p.1) <;>
      simp_all [toEvent, List.filter_cons]

/-! ### Helper lemmas about the sort order -/

theorem charListLe_eq_not_lt (x : List Char) : ∀ y : List Char,
    charListLe x y = !(charListLt y x) := by
  induction x with
  | nil => intro y; cases y <;> rfl
  | cons a xs ih =>
    intro y
    cases y with
    | nil => rfl
    | cons b ys =>
      simp only [charListLe, charListLt]
      rcases Nat.lt_trichotomy a.toNat b.toNat with h | h | h
      · simp [h, Nat.lt_asymm h]
      · simp [h, ih]
      · simp [h, Nat.lt_asymm h]

theorem charListLt_asymm (x : List Char) : ∀ y : List Char,
    charListLt x y = true → charListLt y x = false := by
  induction x with
  | nil =>
    intro y h
    cases y with
    | nil => simp [charListLt] at h
    | cons b ys => rfl
  | cons a xs ih =>
    intro y h
    cases y with
    | nil => simp [charListLt] at h
    | cons b ys =>
      simp only [charListLt] at h ⊢
      rcases Nat.lt_trichotomy a.toNat b.toNat with hab | hab | hab
      · simp [hab, Nat.lt_asymm hab]
      · simp [hab] at h ⊢
        exact ih ys h
      · simp [hab, Nat.lt_asymm hab] at h

theorem specPair_eq_not_eventLt (a b : TimestampEntry) :
    specPair a b = !(eventLt b a) := by
  unfold specPair eventLt
  rcases lt_trichotomy a.datetime b.datetime with h | h | h
  · simp [h, lt_asymm h, h.ne']
  · simp [h, charListLe_eq_not_lt]
  · simp [h, lt_asymm h, h.ne']

theorem eventLt_asymm (a b : TimestampEntry) (h : eventLt a b = true) :
    eventLt b a = false := by
  unfold eventLt at h ⊢
  rcases lt_trichotomy a.datetime b.datetime with hd | hd | hd
  · simp [hd.asymm, hd.ne']
  · simp [hd] at h ⊢
    exact charListLt_asymm _ _ h
  · simp [hd.asymm, hd.ne'] at h

theorem specSortOrdered_cons (a : TimestampEntry) (l : List TimestampEntry)
    (h : specSortOrdered (a :: l) = true) : specSortOrdered l = true := by
  cases l with
  | nil => rfl
  | cons b rest =>
    simp only [specSortOrdered, Bool.and_eq_true] at h
    exact h.2

theorem specSortOrdered_insertEvent (e : TimestampEntry) (l : List TimestampEntry)
    (h : specSortOrdered l = true) : specSortOrdered (insertEvent e l) = true := by
  induction l with
  | nil => rfl
  | cons x xs ih =>
    have hxs := specSortOrdered_cons x xs h
    by_cases hx : eventLt x e = true
    · simp only [insertEvent, if_pos hx]
      have hins := ih hxs
      cases xs with
      | nil =>
        simp only [insertEvent, specSortOrdered, Bool.and_eq_true]
        refine ⟨?_, trivial⟩
        rw [specPair_eq_not_eventLt, eventLt_asymm x e hx]
        rfl
      | cons z zs =>
        by_cases hz : eventLt z e = true
        · simp only [insertEvent, if_pos hz] at hins ⊢
          simp only [specSortOrdered, Bool.and_eq_true] at h ⊢
          exact ⟨h.1, hins⟩
        · simp only [insertEvent, if_neg hz] at hins ⊢
          simp only [specSortOrdered, Bool.and_eq_true] at hins ⊢
          refine ⟨?_, hins⟩
          rw [specPair_eq_not_eventLt, eventLt_asymm x e hx]
          rfl
    · simp only [insertEvent, if_neg hx]
      simp only [Bool.not_eq_true] at hx
      simp only [specSortOrdered, Bool.and_eq_true]
      refine ⟨?_, h⟩
      rw [specPair_eq_not_eventLt, hx]
      rfl

theorem specSortOrdered_sortTimeline (l : List TimestampEntry) :
    specSortOrdered (sortTimeline l) = true := by
  induction l with
  | nil => rfl
  | cons e rest ih => exact specSortOrdered_insertEvent e _ ih

/-! ### Claims -/

/-- C1: pre-filter (no date filter), timeline construction yields between 1
and 4 events for an entry — one per distinct timestamp value (the count
equals the cardinality of the set of the four timestamps) — with exactly 4
events iff the four timestamps are pairwise distinct and exactly 1 iff they
are all identical. -/
theorem timeline_event_count (e : BodyFileEntry) :
    1 ≤ (buildTimeline [e] none).length
    ∧ (buildTimeline [e] none).length ≤ 4
    ∧ (buildTimeline [e] none).length
        = ({e.mtime, e.atime, e.ctime, e.crtime} : Finset Int).card
    ∧ ((buildTimeline [e] none).length = 4 ↔ pairwiseDistinctTimes e)
    ∧ ((buildTimeline [e] none).length = 1 ↔ allTimesEqual e) := by
  have hlen : (buildTimeline [e] none).length = (macbMap e).length := by
    rw [buildTimeline_singleton, entryEvents_none, List.length_map]
  refine ⟨?_, ?_, ?_, ?_, ?_⟩ <;> rw [hlen]
  · rw [length_macbMap]
    split_ifs <;> omega
  · rw [length_macbMap]
    split_ifs <;> omega
  · exact macbMap_length_eq_card e
  · rw [length_macbMap]
    simp only [pairwiseDistinctTimes]
    by_cases h1 : e.atime = e.mtime <;>
    by_cases h2 : e.ctime = e.mtime <;>
    by_cases h3 : e.ctime = e.atime <;>
    by_cases h4 : e.crtime = e.mtime <;>
    by_cases h5 : e.crtime = e.atime <;>
    by_cases h6 : e.crtime = e.ctime <;>
      simp_all
  · rw [length_macbMap]
    simp only [allTimesEqual]
    by_cases h1 : e.atime = e.mtime <;>
    by_cases h2 : e.ctime = e.mtime <;>
    by_cases h3 : e.ctime = e.atime <;>
    by_cases h4 : e.crtime = e.mtime <;>
    by_cases h5 : e.crtime = e.atime <;>
    by_cases h6 : e.crtime = e.ctime <;>
      simp_all

/-- C2: for every entry, the union of the MACB category sets across all of
its events, taken before date filtering (no filter), is the full set
`MODIFIED ||| ACCESSED ||| CHANGED ||| BIRTH`, whose display form is
`macb`; no category is dropped by the merging of coincident timestamps. -/
theorem category_union_law (e : BodyFileEntry) :
    ((buildTimeline [e] none).map (fun ev => ev.macb)).foldr (fun a b => a ||| b) 0
        = MODIFIED ||| ACCESSED ||| CHANGED ||| BIRTH
    ∧ macbDisplay (MODIFIED ||| ACCESSED ||| CHANGED ||| BIRTH) = "macb" := by
  refine ⟨?_, by decide⟩
  have hmap : ∀ l : List (Int × Nat),
      (l.map (toEvent e)).map (fun ev => ev.macb) = l.map Prod.snd := by
    intro l
    induction l with
    | nil => rfl
    | cons p r ih => simp [toEvent, ih]
  rw [buildTimeline_singleton, entryEvents_none, hmap]
  have h := flagUnion_macbMap e
  unfold flagUnion at h
  rw [h]
  decide

/-- C3: with sorting enabled, every adjacent pair of output events is
strictly increasing in instant, or equal in instant with filenames in
ascending lexicographic order: `Vec::sort` compares with `PartialOrd::lt`,
i.e. the overridden `partial_cmp` (`bodyfile.rs:88-115`) with its filename
tie-break.  Concretely, two equal-instant entries named `zzz` then `aaa`
come out in ascending name order. -/
theorem sort_output_ordered :
    (∀ (entries : List BodyFileEntry) (filter : Option DateFilter),
        specSortOrdered (sortTimeline (buildTimeline entries filter)) = true)
    ∧ (sortTimeline (buildTimeline [entryZ, entryA] none)).map (fun ev => ev.filename)
        = ["aaa", "zzz"] := by
  exact ⟨fun entries filter => specSortOrdered_sortTimeline _, by decide⟩

/-- C4: with a date filter, the built timeline is exactly the unfiltered
timeline restricted to events whose instant's UTC calendar date lies in the
closed range (an event is retained iff in range; no filter retains all);
moreover `2020-01-31T23:59:59Z` is inside `DateFilter{2020-01-01,
2020-01-31}` and `2020-02-01T00:00:00Z` is outside. -/
theorem date_filter_retention :
    (∀ (entries : List BodyFileEntry) (f : DateFilter),
        buildTimeline entries (some f)
          = (buildTimeline entries none).filter
              (fun ev => inRangeB f (dateOfInstant ev.datetime)))
    ∧ inRangeB janFilter (dateOfInstant 1580515199) = true
    ∧ inRangeB janFilter (dateOfInstant 1580515200) = false := by
  refine ⟨?_, by decide, by decide⟩
  intro entries f
  induction entries with
  | nil => rfl
  | cons e rest ih =>
    simp only [buildTimeline, List.flatMap_cons] at *
    rw [List.filter_append, ← ih, entryEvents_some, entryEvents_none]

/-- C5: a record that fails to parse recoverably (wrong field count,
non-numeric time field) is skipped and parsing continues — removing such a
line does not change the result — and the concrete 3-line batch whose
second line has a non-numeric `atime` yields exactly the entries of lines 1
and 3. -/
theorem malformed_line_skipped :
    (∀ (pre post : List String) (line : String), parseRecord line = .skip →
        parseStage (pre ++ line :: post) = parseStage (pre ++ post))
    ∧ parseStage [lineA, lineBadAtime, lineC]
        = some [⟨"file1", "1-1-1", 100, 10, 20, 30, 40⟩,
                ⟨"file3", "3-3-3", 100, 50, 60, 70, 80⟩] := by
  refine ⟨?_, by decide⟩
  intro pre post line h
  induction pre with
  | nil => simp [parseStage, h]
  | cons l rest ih =>
    cases hl : parseRecord l <;> simp [parseStage, hl, ih]

/-- Witness for C5: the bad-`atime` line is a recoverable failure, and
skipping it is exactly what the batch parse does. -/
theorem malformed_line_skipped_witness :
    parseRecord lineBadAtime = .skip
    ∧ parseStage [lineA, lineBadAtime, lineC] = parseStage [lineA, lineC] := by
  have h : parseRecord lineBadAtime = .skip := by decide
  exact ⟨h, malformed_line_skipped.1 [lineA] [lineC] lineBadAtime h⟩

/-- C6 counterexample: the text of `i64::MAX` is a decimal string of a
signed 64-bit integer, yet its conversion panics (aborts the run) instead
of producing an instant — timestamp conversion is not total over signed
64-bit values. -/
theorem timestamp_conversion_aborts :
    parseI64 i64MaxStr.toList = some 9223372036854775807
    ∧ deserializeTime i64MaxStr = .outOfRange := by
  exact ⟨by decide, by decide⟩

/-- C6 amended: for every time field whose text parses as a signed 64-bit
integer whose epoch-day lies within chrono's representable date range,
conversion succeeds and yields the UTC instant at that epoch second. -/
theorem timestamp_conversion_in_range (s : String) (ts : Int)
    (h : parseI64 s.toList = some ts)
    (h1 : minEpochDay ≤ ts / 86400) (h2 : ts / 86400 ≤ maxEpochDay) :
    deserializeTime s = .ok ts := by
  have hstep : deserializeTime s
      = match fromTimestamp ts with
        | none => .outOfRange
        | some t => .ok t := by
    unfold deserializeTime
    rw [h]
  rw [hstep]
  unfold fromTimestamp
  rw [if_pos ⟨h1, h2⟩]

/-- Witness for C6 amended: an `atime` of `-86400` converts without error
to the instant rendered `1969-12-31 00:00:00` (UTC). -/
theorem timestamp_conversion_in_range_witness :
    deserializeTime "-86400" = .ok (-86400)
    ∧ formatDatetime (-86400) = "1969-12-31 00:00:00" :=
  ⟨timestamp_conversion_in_range "-86400" (-86400) (by decide) (by decide) (by decide),
   by decide⟩

/-- C7 counterexample: the round-trip line parses to the claimed entry,
but epoch second 1595291898 is `2020-07-21 00:38:18` UTC, so the CSV
output is not the claimed rows (whose data row says `03:38:18`). -/
theorem mft_round_trip_time_wrong :
    parseStage (recordsOf bodyFileReaderConfig [mftLine]) = some [mftEntry]
    ∧ formatDatetime 1595291898 = "2020-07-21 00:38:18"
    ∧ generateCsvRows (buildTimeline [mftEntry] none)
        ≠ ["Datetime,MACB,Meta,Size,FileName",
           "2020-07-21 03:38:18,macb,0-128-6,1835008,c:/$MFT"] := by
  exact ⟨by decide, by decide, by decide⟩

/-- C7 amended: the round-trip line yields exactly one entry, one event
(category bits `macb`, size 1835008, name `c:/$MFT`), and CSV output of
the header row followed by the single data row
`2020-07-21 00:38:18,macb,0-128-6,1835008,c:/$MFT`. -/
theorem mft_round_trip :
    parseStage (recordsOf bodyFileReaderConfig [mftLine]) = some [mftEntry]
    ∧ buildTimeline [mftEntry] none
        = [⟨1595291898, 15, "0-128-6", 1835008, "c:/$MFT"⟩]
    ∧ macbDisplay 15 = "macb"
    ∧ generateCsvRows (buildTimeline [mftEntry] none)
        = ["Datetime,MACB,Meta,Size,FileName",
           "2020-07-21 00:38:18,macb,0-128-6,1835008,c:/$MFT"] := by
  exact ⟨by decide, by decide, by decide, by decide⟩

/-- C8 (code bug): parse failures are reported with `println!`, i.e. on
standard output — the very channel that carries the CSV rows when no output
file is given — so they are not on a channel distinct from the primary
output; only the CSV-row failures (via `eprintln!`) are. -/
theorem parse_errors_share_primary_stdout :
    primaryChannel none = Channel.stdOut
    ∧ parseFailureChannel = primaryChannel none
    ∧ buildTrace [lineA, lineBadAtime, lineC]
        = [(Channel.stdOut, "Error deserializing record")]
    ∧ csvFailureChannel ≠ primaryChannel none := by
  exact ⟨rfl, rfl, by decide, by decide⟩

/-- C9: the parser always supplies its own 11-field virtual header and,
because the headers are preset, the csv reader never withholds the first
line of the file: every line, the first included, is yielded as a data
record. -/
theorem virtual_header_never_consumed :
    (∀ lines : List String, recordsOf bodyFileReaderConfig lines = lines)
    ∧ bodyFileReaderConfig.hasHeaders = true
    ∧ bodyFileReaderConfig.presetHeaders = some bodyFileHeaders
    ∧ bodyFileHeaders.length = 11 :=
  ⟨fun _ => rfl, rfl, rfl, rfl⟩

/-- C10: with a date filter, an entry yields at most 4 events, and an entry
all four of whose timestamps have out-of-range UTC dates yields none (so a
filtered timeline can be empty). -/
theorem filtered_entry_event_bounds (e : BodyFileEntry) (f : DateFilter) :
    (buildTimeline [e] (some f)).length ≤ 4
    ∧ ((inRangeB f (dateOfInstant e.mtime) = false
        ∧ inRangeB f (dateOfInstant e.atime) = false
        ∧ inRangeB f (dateOfInstant e.ctime) = false
        ∧ inRangeB f (dateOfInstant e.crtime) = false)
      → buildTimeline [e] (some f) = []) := by
  constructor
  · rw [buildTimeline_singleton, entryEvents_some]
    calc (((macbMap e).map (toEvent e)).filter
            (fun ev => inRangeB f (dateOfInstant ev.datetime))).length
        ≤ ((macbMap e).map (toEvent e)).length := List.length_filter_le _ _
      _ = (macbMap e).length := List.length_map _ _
      _ ≤ 4 := by
          rw [length_macbMap]
          split_ifs <;> omega
  · rintro ⟨hm, ha, hc, hcr⟩
    rw [buildTimeline_singleton]
    unfold entryEvents
    rw [List.filterMap_eq_nil_iff]
    intro p hp
    have hkey : p.1 ∈ (macbMap e).map Prod.fst := List.mem_map_of_mem Prod.fst hp
    rw [mem_keys_macbMap] at hkey
    rcases hkey with h | h | h | h <;> simp [h, hm, ha, hc, hcr]

/-- Witness for C10: an entry with all timestamps at epoch 0 contributes no
events under the January-2020 filter — the timeline is empty. -/
theorem filtered_entry_event_bounds_witness :
    buildTimeline [entryEpoch] (some janFilter) = [] :=
  (filtered_entry_event_bounds entryEpoch janFilter).2 (by decide)

end Mactime
